import Mathlib

/-!
Shallow embedding of the creative-dashboard UI glue code: the data model
(`Project`, `GeneratedCreative` rows), the generator view's actions
(`loadCreatives`, `generateCreatives`, `downloadAsZip`), the project form
(`handleSubmit`, upload preview handling) and the dashboard's project
loading, together with theorems settling the specification claims.
Remote effects (the backend's tables, the serverless function's response,
per-image fetches) are modelled as explicit state and environment
parameters threaded through each action.
-/

namespace CreativeEngine

/-- A row of the `projects` table (see `lib/supabase` types and the insert
in `ProjectForm.handleSubmit`). -/
structure Project where
  id : Nat
  user_id : Nat
  name : String
  brand_name : String
  logo_url : Option String
  product_image_url : Option String
  created_at : Nat
deriving DecidableEq

/-- A row of the `generated_creatives` table. -/
structure CreativeRow where
  project_id : Nat
  image_url : String
  caption : String
  generation_prompt : String
  variation_number : Nat
deriving DecidableEq

/-- One element of the remote function's JSON response array
(`{ imageUrl, caption, prompt }`). -/
structure RemoteCreative where
  imageUrl : String
  caption : String
  prompt : String
deriving DecidableEq

/-- An authenticated session, as returned by `supabase.auth.getSession()`. -/
structure Session where
  access_token : String
deriving DecidableEq

/-- The HTTP request `generateCreatives` sends to the remote function
endpoint: URL, headers and JSON body fields, as assembled in the `fetch`
call. -/
structure FnRequest where
  url : String
  bearer : String
  apikey : String
  projectId : Nat
  brandName : String
  logoUrl : Option String
  productImageUrl : Option String
  variations : Nat
deriving DecidableEq

/-- The remote function's response: `ok` status and the parsed
`result.creatives` array. -/
structure FnResponse where
  ok : Bool
  creatives : List RemoteCreative
deriving DecidableEq

/-- Environment of one `generateCreatives` run: configuration, the session
returned by `getSession`, the function's response, and whether the batch
insert reports an error (the source checks `insertError`). -/
structure GenEnv where
  supabaseUrl : String
  anonKey : String
  session : Option Session
  response : FnResponse
  insertError : Bool

/-- Outcome of an action: normal completion, or the generic alert shown by
the `catch` block. -/
inductive GenOutcome where
  | success
  | alerted (msg : String)
deriving DecidableEq

/-- Result of one `generateCreatives` run: the `generated_creatives` table
afterwards, the list of remote-function requests issued, and the outcome. -/
structure GenResult where
  db : List CreativeRow
  requests : List FnRequest
  outcome : GenOutcome
deriving DecidableEq

/-- `supabase.from('generated_creatives').delete().eq('project_id', id)`:
removes every row whose `project_id` equals `pid`. -/
def deleteByProject (db : List CreativeRow) (pid : Nat) : List CreativeRow :=
  db.filter (fun r => r.project_id != pid)

/-- The `result.creatives.map((creative, index) => ...)` body, carrying the
running index: each response element becomes a row with the three fields
copied and `variation_number := index + 1`. -/
def creativesToInsertFrom (pid : Nat) (index : Nat) :
    List RemoteCreative → List CreativeRow
  | [] => []
  | c :: rest =>
      { project_id := pid, image_url := c.imageUrl, caption := c.caption,
        generation_prompt := c.prompt, variation_number := index + 1 }
        :: creativesToInsertFrom pid (index + 1) rest

/-- The full `creativesToInsert` list (`map` starts at index 0). -/
def creativesToInsert (pid : Nat) (creatives : List RemoteCreative) :
    List CreativeRow :=
  creativesToInsertFrom pid 0 creatives

/-- The alert message of `generateCreatives`'s catch block. -/
def genAlertMsg : String := "Failed to generate creatives. Please try again."

/-- The request `generateCreatives` builds for a session `s`. -/
def genRequest (env : GenEnv) (project : Project) (s : Session) : FnRequest :=
  { url := env.supabaseUrl ++ "/functions/v1/generate-creatives"
    bearer := s.access_token
    apikey := env.anonKey
    projectId := project.id
    brandName := project.brand_name
    logoUrl := project.logo_url
    productImageUrl := project.product_image_url
    variations := 12 }

/-- The `generateCreatives` action of `CreativeGenerator`: with no session
it throws before any request; otherwise it POSTs once to the function
endpoint, and on an ok response deletes the project's rows, inserts the
mapped batch, and fails (alert) only if the insert reports an error. Every
thrown error lands in the catch block's generic alert. -/
def generateCreatives (env : GenEnv) (project : Project)
    (db : List CreativeRow) : GenResult :=
  match env.session with
  | none => { db := db, requests := [], outcome := .alerted genAlertMsg }
  | some s =>
      let req := genRequest env project s
      if env.response.ok then
        let afterDelete := deleteByProject db project.id
        let rows := creativesToInsert project.id env.response.creatives
        if env.insertError then
          { db := afterDelete, requests := [req], outcome := .alerted genAlertMsg }
        else
          { db := afterDelete ++ rows, requests := [req], outcome := .success }
      else
        { db := db, requests := [req], outcome := .alerted genAlertMsg }

/-! ### Archive export (`downloadAsZip`) -/

/-- One manifest entry of `captions.txt`: the template literal
`Image ${index + 1}:\n${caption}\n\nPrompt: ${prompt}\n\n---\n\n`
(JS number interpolation is decimal, i.e. `Nat.repr`). -/
def captionEntry (creative : CreativeRow) (index : Nat) : String :=
  "Image " ++ Nat.repr (index + 1) ++ ":\n" ++ creative.caption ++
    "\n\nPrompt: " ++ creative.generation_prompt ++ "\n\n---\n\n"

/-- The `creatives.map((creative, index) => ...)` list of manifest entries,
carrying the running index. -/
def captionLines : List CreativeRow → Nat → List String
  | [], _ => []
  | c :: rest, i => captionEntry c i :: captionLines rest (i + 1)

/-- The manifest written to `captions.txt`: the entry list joined with `''`. -/
def captionsText (creatives : List CreativeRow) : String :=
  String.join (captionLines creatives 0)

/-- The name of an item's image entry:
`creative_${creative.variation_number}.jpg`. -/
def imageFileName (creative : CreativeRow) : String :=
  "creative_" ++ Nat.repr creative.variation_number ++ ".jpg"

/-- `zip.file(name, content)`: JSZip stores one entry per name, replacing
the content when the name already exists, otherwise appending the entry. -/
def zipFile (entries : List (String × String)) (name content : String) :
    List (String × String) :=
  if entries.any (fun e => e.fst == name) then
    entries.map (fun e => if e.fst == name then (name, content) else e)
  else
    entries ++ [(name, content)]

/-- The `console.error` line of the per-item catch:
`Failed to fetch image ${i + 1}:` followed by the error. -/
def fetchLogMsg (n : Nat) (err : String) : String :=
  "Failed to fetch image " ++ Nat.repr n ++ ":" ++ err

/-- State threaded through the image-fetch loop: the ZIP entries built so
far, the console log, and the URLs fetched (in order). -/
structure ZipLoopState where
  entries : List (String × String)
  logs : List String
  fetches : List String
deriving DecidableEq

/-- The `for (let i = 0; i < creatives.length; i++)` loop: each item's
image URL is fetched; on success the blob is added as
`creative_<variation_number>.jpg`, on a thrown error the failure is logged
and the item skipped. `fetchImage` models `fetch` + `response.blob()`
(`.error` models a throw). -/
def addImages (fetchImage : String → Except String String) :
    List CreativeRow → Nat → ZipLoopState → ZipLoopState
  | [], _, st => st
  | c :: rest, i, st =>
      match fetchImage c.image_url with
      | .ok blob =>
          addImages fetchImage rest (i + 1)
            { st with entries := zipFile st.entries (imageFileName c) blob,
                      fetches := st.fetches ++ [c.image_url] }
      | .error e =>
          addImages fetchImage rest (i + 1)
            { st with logs := st.logs ++ [fetchLogMsg (i + 1) e],
                      fetches := st.fetches ++ [c.image_url] }

/-- The ZIP before the image loop: `zip.file('captions.txt', captionsText)`
on an empty archive. -/
def initialZip (creatives : List CreativeRow) : List (String × String) :=
  zipFile [] "captions.txt" (captionsText creatives)

/-- The archive state after the whole image-fetch loop. -/
def zipLoop (fetchImage : String → Except String String)
    (creatives : List CreativeRow) : ZipLoopState :=
  addImages fetchImage creatives 0
    { entries := initialZip creatives, logs := [], fetches := [] }

/-- `name.replace(/\s+/g, '_')` on the character list: every maximal run of
whitespace becomes a single underscore. -/
def collapseWs : List Char → List Char
  | [] => []
  | c :: rest =>
      if c.isWhitespace then
        '_' :: collapseWs (rest.dropWhile Char.isWhitespace)
      else
        c :: collapseWs rest
termination_by l => l.length
decreasing_by
  · exact Nat.lt_succ_of_le (List.dropWhile_sublist Char.isWhitespace).length_le
  · exact Nat.lt_succ_of_le (Nat.le_refl rest.length)

/-- `project.name.replace(/\s+/g, '_')`. -/
def sanitizeName (s : String) : String :=
  String.mk (collapseWs s.data)

/-- The download attribute: `${project.name.replace(/\s+/g, '_')}_creatives.zip`. -/
def zipDownloadName (project : Project) : String :=
  sanitizeName project.name ++ "_creatives.zip"

/-- The alert message of `downloadAsZip`'s catch block. -/
def zipAlertMsg : String := "Failed to download zip file. Please try again."

/-- Outcome of `downloadAsZip`: a browser download of the generated
archive, or the generic alert from the catch block. -/
inductive ZipOutcome where
  | downloaded (filename : String) (entries : List (String × String))
  | alerted (msg : String)
deriving DecidableEq

/-- Result of a `downloadAsZip` run: outcome, console log, fetched URLs. -/
structure ZipResult where
  outcome : ZipOutcome
  logs : List String
  fetches : List String
deriving DecidableEq

/-- The `downloadAsZip` action: writes the manifest, runs the image loop
(whose per-item failures are caught inside the loop), then generates the
archive and hands it to the browser. `zipGenError` models a throw outside
the per-item try (library import or `generateAsync`), the only failures
reaching the outer catch. -/
def downloadAsZip (project : Project) (creatives : List CreativeRow)
    (fetchImage : String → Except String String) (zipGenError : Bool) :
    ZipResult :=
  let st := zipLoop fetchImage creatives
  if zipGenError then
    { outcome := .alerted zipAlertMsg, logs := st.logs, fetches := st.fetches }
  else
    { outcome := .downloaded (zipDownloadName project) st.entries,
      logs := st.logs, fetches := st.fetches }

/-! ### Loading creatives (`loadCreatives`) -/

/-- The ordering requested by `.order('variation_number', { ascending: true })`. -/
def byVariation (a b : CreativeRow) : Prop :=
  a.variation_number ≤ b.variation_number

instance : DecidableRel byVariation := fun a b =>
  Nat.decLe a.variation_number b.variation_number

instance : IsTotal CreativeRow byVariation :=
  ⟨fun a b => Nat.le_total a.variation_number b.variation_number⟩

instance : IsTrans CreativeRow byVariation :=
  ⟨fun _ _ _ => Nat.le_trans⟩

/-- `loadCreatives`: select the project's rows ordered ascending by
`variation_number` (the remote sort is modelled by insertion sort). -/
def loadCreatives (db : List CreativeRow) (pid : Nat) : List CreativeRow :=
  List.insertionSort byVariation (db.filter (fun r => r.project_id == pid))

/-! ### Project form state (`ProjectForm` + `FileUpload`) -/

/-- One upload slot of the form: the selected file (modelled by its name)
and the preview URL state. -/
structure UploadSlot where
  file : Option String
  preview : String
deriving DecidableEq

/-- The form's upload-related state: the two slots plus the set of object
URLs created by `URL.createObjectURL` and not yet revoked. -/
structure FormState where
  logo : UploadSlot
  product : UploadSlot
  liveUrls : List String
deriving DecidableEq

/-- `URL.createObjectURL(file)`, modelled as a deterministic URL for the
file; `handleLogoSelect`/`handleProductSelect` register it as live. -/
def createObjectURL (file : String) : String :=
  "blob:" ++ file

/-- `handleLogoSelect`: store the file and set its preview to a fresh
object URL. -/
def handleLogoSelect (st : FormState) (file : String) : FormState :=
  { st with logo := { file := some file, preview := createObjectURL file },
            liveUrls := st.liveUrls ++ [createObjectURL file] }

/-- `handleProductSelect`: store the file and set its preview to a fresh
object URL. -/
def handleProductSelect (st : FormState) (file : String) : FormState :=
  { st with product := { file := some file, preview := createObjectURL file },
            liveUrls := st.liveUrls ++ [createObjectURL file] }

/-- Modelled from the spec: `FileUpload.tsx` is not among the provided
sources; the spec states that upload preview URLs are revoked/cleared on
cancel, so the clear control is modelled as revoking the slot's live
preview object URL and then running the form's `onClear` handler, which
(per `ProjectForm`) resets the logo file to `null` and the logo preview to
the empty string. -/
def clearLogo (st : FormState) : FormState :=
  { st with logo := { file := none, preview := "" },
            liveUrls := st.liveUrls.filter (fun u => u != st.logo.preview) }

/-- Modelled from the spec: the same clear control for the product slot
(see `clearLogo`); resets the product file and preview per `ProjectForm`'s
`onClear` and revokes the preview object URL per the spec. -/
def clearProduct (st : FormState) : FormState :=
  { st with product := { file := none, preview := "" },
            liveUrls := st.liveUrls.filter (fun u => u != st.product.preview) }

/-! ### Database operations issued by the UI (`projects` immutability) -/

/-- The two tables the UI talks to. -/
inductive Table where
  | projects
  | generated_creatives
deriving DecidableEq

/-- A database operation issued through the client, tagged by the call
that builds it. -/
inductive DbOp where
  | selectProjects
  | selectCreatives (pid : Nat)
  | insertProject (p : Project)
  | deleteCreatives (pid : Nat)
  | insertCreatives (rows : List CreativeRow)
deriving DecidableEq

/-- The table a `DbOp` targets (the `supabase.from('...')` argument). -/
def DbOp.table : DbOp → Table
  | .selectProjects => .projects
  | .selectCreatives _ => .generated_creatives
  | .insertProject _ => .projects
  | .deleteCreatives _ => .generated_creatives
  | .insertCreatives _ => .generated_creatives

/-- The remote database: both tables. -/
structure Db where
  projects : List Project
  creatives : List CreativeRow
deriving DecidableEq

/-- Effect of one operation on the database. -/
def applyDbOp (db : Db) : DbOp → Db
  | .selectProjects => db
  | .selectCreatives _ => db
  | .insertProject p => { db with projects := db.projects ++ [p] }
  | .deleteCreatives pid =>
      { db with creatives := deleteByProject db.creatives pid }
  | .insertCreatives rows => { db with creatives := db.creatives ++ rows }

/-- The user-triggerable UI actions, with the run conditions that decide
which database operations they reach: `ProjectForm.handleSubmit` issues its
insert only when a user is present and both uploads succeed;
`generateCreatives` reaches its delete/insert only with a session and an ok
response; logout and archive export issue no table operation. -/
inductive UIAction where
  | loadProjects
  | loadCreatives (pid : Nat)
  | submitNoUser
  | submitUploadFailed
  | submitProject (p : Project)
  | generate (env : GenEnv) (project : Project)
  | downloadZip
  | logout
deriving Inhabited

/-- The database operations each action issues, read off the source:
`Dashboard.loadProjects` selects projects; `CreativeGenerator.loadCreatives`
selects the project's creatives; `ProjectForm.handleSubmit` inserts one
project row when it gets past the uploads; `generateCreatives` deletes then
inserts the project's creatives when the remote call succeeds; archive
export and logout touch no table. -/
def dbOps : UIAction → List DbOp
  | .loadProjects => [.selectProjects]
  | .loadCreatives pid => [.selectCreatives pid]
  | .submitNoUser => []
  | .submitUploadFailed => []
  | .submitProject p => [.insertProject p]
  | .generate env project =>
      match env.session with
      | none => []
      | some _ =>
          if env.response.ok then
            [.deleteCreatives project.id,
             .insertCreatives (creativesToInsert project.id env.response.creatives)]
          else []
  | .downloadZip => []
  | .logout => []

/-- Run a sequence of UI actions against the database. -/
def applyActions (db : Db) (acts : List UIAction) : Db :=
  acts.foldl (fun d a => (dbOps a).foldl applyDbOp d) db

/-! ### Sample data for witnesses -/

/-- A concrete project used by witness instances. -/
def sampleProject : Project :=
  { id := 1, user_id := 7, name := "Summer Glow", brand_name := "Acme",
    logo_url := some "https://cdn.example/logo.png",
    product_image_url := none, created_at := 100 }

/-- A concrete session used by witness instances. -/
def sampleSession : Session := { access_token := "tok-123" }

/-- A concrete remote response array of two creatives. -/
def sampleRemotes : List RemoteCreative :=
  [{ imageUrl := "https://img.example/1", caption := "cap one",
     prompt := "prompt one" },
   { imageUrl := "https://img.example/2", caption := "cap two",
     prompt := "prompt two" }]

/-- Environment of a fully successful generation run. -/
def sampleEnvOk : GenEnv :=
  { supabaseUrl := "https://proj.supabase.co", anonKey := "anon",
    session := some sampleSession,
    response := { ok := true, creatives := sampleRemotes },
    insertError := false }

/-- Environment whose batch insert reports an error. -/
def sampleEnvInsertFail : GenEnv :=
  { sampleEnvOk with insertError := true }

/-- Environment with no authenticated session. -/
def sampleEnvNoSession : GenEnv :=
  { sampleEnvOk with session := none }

/-- A concrete prior-batch row of the sample project. -/
def sampleOldRow : CreativeRow :=
  { project_id := 1, image_url := "https://img.example/old",
    caption := "old cap", generation_prompt := "old prompt",
    variation_number := 5 }

/-- A concrete row of a different project. -/
def sampleOtherRow : CreativeRow :=
  { project_id := 2, image_url := "https://img.example/other",
    caption := "other cap", generation_prompt := "other prompt",
    variation_number := 1 }

/-- A concrete prior state of `generated_creatives`: one prior-batch row
for the sample project and one row of another project. -/
def sampleDb : List CreativeRow :=
  [sampleOldRow, sampleOtherRow]

/-- A concrete creative whose image fetch will succeed. -/
def sampleCreativeA : CreativeRow :=
  { project_id := 1, image_url := "https://img.example/a",
    caption := "A cap", generation_prompt := "A prompt",
    variation_number := 1 }

/-- A concrete creative whose image fetch will fail. -/
def sampleCreativeB : CreativeRow :=
  { project_id := 1, image_url := "https://img.example/b",
    caption := "B cap", generation_prompt := "B prompt",
    variation_number := 2 }

/-- A concrete creatives list for archive-export witnesses. -/
def sampleCreatives : List CreativeRow :=
  [sampleCreativeA, sampleCreativeB]

/-- A concrete fetch function: succeeds on the first sample image URL and
throws on every other URL. -/
def sampleFetch : String → Except String String := fun url =>
  if url == "https://img.example/a" then Except.ok "BLOB-A"
  else Except.error "network down"

/-- A second concrete project, inserted by a sample form submission. -/
def sampleProject2 : Project :=
  { id := 2, user_id := 7, name := "Winter Drop", brand_name := "Acme",
    logo_url := none, product_image_url := none, created_at := 200 }

/-- A concrete database for the immutability witness. -/
def sampleFullDb : Db :=
  { projects := [sampleProject], creatives := sampleDb }

/-- A concrete sequence of UI actions for the immutability witness. -/
def sampleActions : List UIAction :=
  [UIAction.loadProjects, UIAction.submitProject sampleProject2,
   UIAction.generate sampleEnvOk sampleProject, UIAction.loadCreatives 1,
   UIAction.downloadZip, UIAction.logout]

/-- The form's initial state: no files, empty previews, no live URLs. -/
def emptyForm : FormState :=
  { logo := { file := none, preview := "" },
    product := { file := none, preview := "" }, liveUrls := [] }

/-! ### Lemmas about the generation batch -/

theorem creativesToInsertFrom_project_id (pid : Nat) :
    ∀ (l : List RemoteCreative) (i : Nat) (r : CreativeRow),
      r ∈ creativesToInsertFrom pid i l → r.project_id = pid := by
  intro l
  induction l with
  | nil => intro i r h; simp [creativesToInsertFrom] at h
  | cons c rest ih =>
      intro i r h
      rcases (List.mem_cons).mp h with h1 | h1
      · rw [h1]
      · exact ih (i + 1) r h1

theorem filter_creativesToInsertFrom (pid : Nat) (l : List RemoteCreative)
    (i : Nat) :
    (creativesToInsertFrom pid i l).filter (fun r => r.project_id == pid)
      = creativesToInsertFrom pid i l := by
  apply List.filter_eq_self.mpr
  intro r hr
  simpa using creativesToInsertFrom_project_id pid l i r hr

theorem filter_deleteByProject (db : List CreativeRow) (pid : Nat) :
    (deleteByProject db pid).filter (fun r => r.project_id == pid) = [] := by
  apply List.filter_eq_nil_iff.mpr
  intro r hr
  have hne := (List.mem_filter.mp
    (show r ∈ db.filter (fun x => x.project_id != pid) from hr)).2
  simp only [bne_iff_ne, ne_eq] at hne
  simp [hne]

theorem map_variation_creativesToInsertFrom (pid : Nat) :
    ∀ (l : List RemoteCreative) (i : Nat),
      (creativesToInsertFrom pid i l).map (fun r => r.variation_number)
        = List.range' (i + 1) l.length := by
  intro l
  induction l with
  | nil => intro i; simp [creativesToInsertFrom]
  | cons c rest ih =>
      intro i
      simp [creativesToInsertFrom, List.range'_succ, ih (i + 1)]

theorem forall₂_creativesToInsertFrom (pid : Nat) :
    ∀ (l : List RemoteCreative) (i : Nat),
      List.Forall₂ (fun (c : RemoteCreative) (r : CreativeRow) =>
          r.image_url = c.imageUrl ∧ r.caption = c.caption ∧
            r.generation_prompt = c.prompt)
        l (creativesToInsertFrom pid i l) := by
  intro l
  induction l with
  | nil => intro i; exact List.Forall₂.nil
  | cons c rest ih =>
      intro i
      exact List.Forall₂.cons ⟨rfl, rfl, rfl⟩ (ih (i + 1))

theorem generateCreatives_success_eq (env : GenEnv) (project : Project)
    (db : List CreativeRow) (s : Session) (hs : env.session = some s)
    (hok : env.response.ok = true) (hins : env.insertError = false) :
    generateCreatives env project db =
      { db := deleteByProject db project.id
          ++ creativesToInsert project.id env.response.creatives,
        requests := [genRequest env project s],
        outcome := .success } := by
  simp [generateCreatives, hs, hok, hins]

theorem generateCreatives_insertFail_eq (env : GenEnv) (project : Project)
    (db : List CreativeRow) (s : Session) (hs : env.session = some s)
    (hok : env.response.ok = true) (hins : env.insertError = true) :
    generateCreatives env project db =
      { db := deleteByProject db project.id,
        requests := [genRequest env project s],
        outcome := .alerted genAlertMsg } := by
  simp [generateCreatives, hs, hok, hins]

theorem filter_success_db (env : GenEnv) (project : Project)
    (db : List CreativeRow) :
    (deleteByProject db project.id
        ++ creativesToInsert project.id env.response.creatives).filter
        (fun r => r.project_id == project.id)
      = creativesToInsert project.id env.response.creatives := by
  rw [List.filter_append, filter_deleteByProject]
  rw [show creativesToInsert project.id env.response.creatives
      = creativesToInsertFrom project.id 0 env.response.creatives from rfl]
  rw [filter_creativesToInsertFrom]
  rfl

theorem generateCreatives_requests_of_session (env : GenEnv)
    (project : Project) (db : List CreativeRow) (s : Session)
    (hs : env.session = some s) :
    (generateCreatives env project db).requests = [genRequest env project s] := by
  by_cases hok : env.response.ok = true
  · by_cases hins : env.insertError = true
    · simp [generateCreatives, hs, hok, hins]
    · simp [generateCreatives, hs, hok, hins]
  · simp [generateCreatives, hs, hok]

theorem generateCreatives_outcome_cases (env : GenEnv) (project : Project)
    (db : List CreativeRow) :
    (generateCreatives env project db).outcome = GenOutcome.success ∨
      (generateCreatives env project db).outcome
        = GenOutcome.alerted genAlertMsg := by
  cases hs : env.session with
  | none => right; simp [generateCreatives, hs]
  | some s =>
      by_cases hok : env.response.ok = true
      · by_cases hins : env.insertError = true
        · right; simp [generateCreatives, hs, hok, hins]
        · left; simp [generateCreatives, hs, hok, hins]
      · right; simp [generateCreatives, hs, hok]

theorem generateCreatives_requests_short (env : GenEnv) (project : Project)
    (db : List CreativeRow) :
    (generateCreatives env project db).requests.length ≤ 1 := by
  cases hs : env.session with
  | none => simp [generateCreatives, hs]
  | some s => simp [generateCreatives_requests_of_session env project db s hs]

/-! ### Claim theorems: generation -/

/-- C1: a successful `generateCreatives` run first deletes every
`generated_creatives` row of the project and then inserts one row per
response creative, so afterwards the project's stored rows are exactly the
new batch — replace, never append. -/
theorem generateCreatives_replaces_batch (env : GenEnv) (project : Project)
    (db : List CreativeRow) (s : Session) (hs : env.session = some s)
    (hok : env.response.ok = true) (hins : env.insertError = false) :
    (generateCreatives env project db).outcome = GenOutcome.success ∧
    (generateCreatives env project db).db
      = deleteByProject db project.id
          ++ creativesToInsert project.id env.response.creatives ∧
    (generateCreatives env project db).db.filter
        (fun r => r.project_id == project.id)
      = creativesToInsert project.id env.response.creatives := by
  rw [generateCreatives_success_eq env project db s hs hok hins]
  exact ⟨rfl, rfl, filter_success_db env project db⟩

theorem generateCreatives_replaces_batch_witness :
    (generateCreatives sampleEnvOk sampleProject sampleDb).outcome
        = GenOutcome.success ∧
    (generateCreatives sampleEnvOk sampleProject sampleDb).db
      = deleteByProject sampleDb sampleProject.id
          ++ creativesToInsert sampleProject.id sampleEnvOk.response.creatives ∧
    (generateCreatives sampleEnvOk sampleProject sampleDb).db.filter
        (fun r => r.project_id == sampleProject.id)
      = creativesToInsert sampleProject.id sampleEnvOk.response.creatives :=
  generateCreatives_replaces_batch sampleEnvOk sampleProject sampleDb
    sampleSession rfl rfl rfl

/-- C2: after a successful run the project's stored batch carries
variation numbers exactly `1, 2, ..., N` in response order, where `N` is
the length of the response array, and the request asks for 12 variations. -/
theorem generateCreatives_dense_variations (env : GenEnv) (project : Project)
    (db : List CreativeRow) (s : Session) (hs : env.session = some s)
    (hok : env.response.ok = true) (hins : env.insertError = false) :
    (generateCreatives env project db).outcome = GenOutcome.success ∧
    ((generateCreatives env project db).db.filter
        (fun r => r.project_id == project.id)).map
        (fun r => r.variation_number)
      = List.range' 1 env.response.creatives.length ∧
    (genRequest env project s).variations = 12 := by
  rw [generateCreatives_success_eq env project db s hs hok hins]
  refine ⟨rfl, ?_, rfl⟩
  rw [filter_success_db env project db]
  exact map_variation_creativesToInsertFrom project.id
    env.response.creatives 0

theorem generateCreatives_dense_variations_witness :
    (generateCreatives sampleEnvOk sampleProject sampleDb).outcome
        = GenOutcome.success ∧
    ((generateCreatives sampleEnvOk sampleProject sampleDb).db.filter
        (fun r => r.project_id == sampleProject.id)).map
        (fun r => r.variation_number)
      = List.range' 1 sampleEnvOk.response.creatives.length ∧
    (genRequest sampleEnvOk sampleProject sampleSession).variations = 12 :=
  generateCreatives_dense_variations sampleEnvOk sampleProject sampleDb
    sampleSession rfl rfl rfl

/-- C5: every failing run surfaces the one generic alert and makes at most
one remote call (no retry); in particular when the batch insert fails after
the delete already ran, nothing is rolled back — the project's prior rows
stay deleted and no new row is stored. -/
theorem generateCreatives_failure_no_rollback (env : GenEnv)
    (project : Project) (db : List CreativeRow) (s : Session)
    (hs : env.session = some s) (hok : env.response.ok = true)
    (hins : env.insertError = true) :
    (∀ (env2 : GenEnv) (p2 : Project) (db2 : List CreativeRow),
        (generateCreatives env2 p2 db2).outcome ≠ GenOutcome.success →
        (generateCreatives env2 p2 db2).outcome
          = GenOutcome.alerted genAlertMsg) ∧
    (∀ (env2 : GenEnv) (p2 : Project) (db2 : List CreativeRow),
        (generateCreatives env2 p2 db2).requests.length ≤ 1) ∧
    (generateCreatives env project db).outcome
      = GenOutcome.alerted genAlertMsg ∧
    (generateCreatives env project db).db = deleteByProject db project.id ∧
    (generateCreatives env project db).db.filter
        (fun r => r.project_id == project.id) = [] := by
  refine ⟨?_, ?_, ?_, ?_, ?_⟩
  · intro env2 p2 db2 hne
    rcases generateCreatives_outcome_cases env2 p2 db2 with h | h
    · exact absurd h hne
    · exact h
  · intro env2 p2 db2
    exact generateCreatives_requests_short env2 p2 db2
  · rw [generateCreatives_insertFail_eq env project db s hs hok hins]
  · rw [generateCreatives_insertFail_eq env project db s hs hok hins]
  · rw [generateCreatives_insertFail_eq env project db s hs hok hins]
    exact filter_deleteByProject db project.id

theorem generateCreatives_failure_no_rollback_witness :
    (generateCreatives sampleEnvInsertFail sampleProject sampleDb).outcome
        = GenOutcome.alerted genAlertMsg ∧
    (generateCreatives sampleEnvInsertFail sampleProject sampleDb).db
        = deleteByProject sampleDb sampleProject.id ∧
    (generateCreatives sampleEnvInsertFail sampleProject sampleDb).db.filter
        (fun r => r.project_id == sampleProject.id) = [] := by
  have h := generateCreatives_failure_no_rollback sampleEnvInsertFail
    sampleProject sampleDb sampleSession rfl rfl rfl
  exact ⟨h.2.2.1, h.2.2.2.1, h.2.2.2.2⟩

/-- C6: with a session, exactly one request goes to the function endpoint,
bearing the session's access token; its body carries the project fields and
12 variations. On success exactly the three response fields of each array
element are persisted (as `image_url`, `caption`, `generation_prompt`).
With no session no request is made and the action ends in the alert. -/
theorem generateCreatives_remote_call_contract (env : GenEnv)
    (project : Project) (db : List CreativeRow) :
    (∀ s : Session, env.session = some s →
        (generateCreatives env project db).requests
            = [genRequest env project s] ∧
        (genRequest env project s).url
            = env.supabaseUrl ++ "/functions/v1/generate-creatives" ∧
        (genRequest env project s).bearer = s.access_token) ∧
    (env.session = none →
        (generateCreatives env project db).requests = [] ∧
        (generateCreatives env project db).outcome
          = GenOutcome.alerted genAlertMsg) ∧
    (∀ s : Session, env.session = some s → env.response.ok = true →
        env.insertError = false →
        List.Forall₂ (fun (c : RemoteCreative) (r : CreativeRow) =>
            r.image_url = c.imageUrl ∧ r.caption = c.caption ∧
              r.generation_prompt = c.prompt)
          env.response.creatives
          ((generateCreatives env project db).db.filter
            (fun r => r.project_id == project.id))) := by
  refine ⟨?_, ?_, ?_⟩
  · intro s hs
    exact ⟨generateCreatives_requests_of_session env project db s hs, rfl, rfl⟩
  · intro hn
    constructor
    · simp [generateCreatives, hn]
    · simp [generateCreatives, hn]
  · intro s hs hok hins
    rw [generateCreatives_success_eq env project db s hs hok hins]
    rw [filter_success_db env project db]
    exact forall₂_creativesToInsertFrom project.id env.response.creatives 0

theorem generateCreatives_remote_call_contract_witness :
    (generateCreatives sampleEnvOk sampleProject sampleDb).requests
        = [genRequest sampleEnvOk sampleProject sampleSession] ∧
    (genRequest sampleEnvOk sampleProject sampleSession).bearer
        = sampleSession.access_token ∧
    (generateCreatives sampleEnvNoSession sampleProject sampleDb).requests
        = [] ∧
    List.Forall₂ (fun (c : RemoteCreative) (r : CreativeRow) =>
        r.image_url = c.imageUrl ∧ r.caption = c.caption ∧
          r.generation_prompt = c.prompt)
      sampleEnvOk.response.creatives
      ((generateCreatives sampleEnvOk sampleProject sampleDb).db.filter
        (fun r => r.project_id == sampleProject.id)) := by
  have h1 := generateCreatives_remote_call_contract sampleEnvOk
    sampleProject sampleDb
  have h2 := generateCreatives_remote_call_contract sampleEnvNoSession
    sampleProject sampleDb
  exact ⟨(h1.1 sampleSession rfl).1, (h1.1 sampleSession rfl).2.2,
    (h2.2.1 rfl).1, h1.2.2 sampleSession rfl rfl rfl⟩

/-! ### Lemmas about the archive builder -/

theorem imageFileName_ne_captions (c : CreativeRow) :
    imageFileName c ≠ "captions.txt" := by
  intro h
  have hd := congrArg String.data h
  rw [show imageFileName c
      = "creative_" ++ Nat.repr c.variation_number ++ ".jpg" from rfl] at hd
  rw [String.data_append, String.data_append] at hd
  have h1 : (("creative_".data ++ (Nat.repr c.variation_number).data)
      ++ ".jpg".data)[1]? = some 'r' := by
    rw [List.getElem?_append_left, List.getElem?_append_left]
    · decide
    · decide
    · rw [List.length_append]
      have h9 : "creative_".data.length = 9 := by decide
      omega
  rw [hd] at h1
  simp at h1

theorem initialZip_eq (creatives : List CreativeRow) :
    initialZip creatives = [("captions.txt", captionsText creatives)] := rfl

theorem zipFile_names (z : List (String × String)) (n c : String) :
    (zipFile z n c).map Prod.fst =
      if n ∈ z.map Prod.fst then z.map Prod.fst
      else z.map Prod.fst ++ [n] := by
  by_cases h : n ∈ z.map Prod.fst
  · have hany : z.any (fun e => e.fst == n) = true := by
      rcases List.mem_map.mp h with ⟨e, he, hfst⟩
      exact List.any_eq_true.mpr ⟨e, he, by simp [hfst]⟩
    rw [if_pos h]
    unfold zipFile
    rw [hany]
    simp only [if_true, List.map_map]
    apply List.map_congr_left
    intro e _
    by_cases hf : e.fst = n
    · simp [Function.comp, hf]
    · simp [Function.comp, hf]
  · have hany : z.any (fun e => e.fst == n) = false := by
      rw [Bool.eq_false_iff]
      intro hc
      rcases List.any_eq_true.mp hc with ⟨e, he, hfst⟩
      exact h (List.mem_map.mpr ⟨e, he, by simpa using hfst⟩)
    rw [if_neg h]
    unfold zipFile
    rw [hany]
    simp

theorem zipFile_names_mem (z : List (String × String)) (n c m : String) :
    m ∈ (zipFile z n c).map Prod.fst ↔ m ∈ z.map Prod.fst ∨ m = n := by
  rw [zipFile_names]
  by_cases h : n ∈ z.map Prod.fst
  · rw [if_pos h]
    constructor
    · exact Or.inl
    · rintro (hm | rfl)
      · exact hm
      · exact h
  · rw [if_neg h]
    simp

theorem zipFile_names_nodup (z : List (String × String)) (n c : String)
    (hd : (z.map Prod.fst).Nodup) :
    ((zipFile z n c).map Prod.fst).Nodup := by
  rw [zipFile_names]
  by_cases h : n ∈ z.map Prod.fst
  · rw [if_pos h]; exact hd
  · rw [if_neg h]
    simp [List.nodup_append, hd, h]

theorem zipFile_mem_of_ne (z : List (String × String)) (n c : String)
    (p : String × String) (hp : p ∈ z) (hne : p.fst ≠ n) :
    p ∈ zipFile z n c := by
  unfold zipFile
  by_cases hany : z.any (fun e => e.fst == n) = true
  · rw [hany]
    simp only [if_true]
    refine List.mem_map.mpr ⟨p, hp, ?_⟩
    simp [hne]
  · rw [Bool.eq_false_iff.mpr hany]
    simp only [Bool.false_eq_true, if_false]
    exact List.mem_append_left _ hp

theorem addImages_cons_ok (f : String → Except String String)
    (c : CreativeRow) (rest : List CreativeRow) (i : Nat)
    (st : ZipLoopState) (b : String) (hf : f c.image_url = Except.ok b) :
    addImages f (c :: rest) i st
      = addImages f rest (i + 1)
          { entries := zipFile st.entries (imageFileName c) b,
            logs := st.logs,
            fetches := st.fetches ++ [c.image_url] } := by
  simp [addImages, hf]

theorem addImages_cons_error (f : String → Except String String)
    (c : CreativeRow) (rest : List CreativeRow) (i : Nat)
    (st : ZipLoopState) (e : String) (hf : f c.image_url = Except.error e) :
    addImages f (c :: rest) i st
      = addImages f rest (i + 1)
          { entries := st.entries,
            logs := st.logs ++ [fetchLogMsg (i + 1) e],
            fetches := st.fetches ++ [c.image_url] } := by
  simp [addImages, hf]

theorem addImages_fetches (f : String → Except String String) :
    ∀ (cs : List CreativeRow) (i : Nat) (st : ZipLoopState),
      (addImages f cs i st).fetches
        = st.fetches ++ cs.map (fun c => c.image_url) := by
  intro cs
  induction cs with
  | nil => intro i st; simp [addImages]
  | cons c rest ih =>
      intro i st
      cases hf : f c.image_url with
      | ok b =>
          rw [addImages_cons_ok f c rest i st b hf, ih]
          simp
      | error e =>
          rw [addImages_cons_error f c rest i st e hf, ih]
          simp

theorem addImages_logs_mono (f : String → Except String String) :
    ∀ (cs : List CreativeRow) (i : Nat) (st : ZipLoopState) (m : String),
      m ∈ st.logs → m ∈ (addImages f cs i st).logs := by
  intro cs
  induction cs with
  | nil => intro i st m hm; simpa [addImages] using hm
  | cons c rest ih =>
      intro i st m hm
      cases hf : f c.image_url with
      | ok b =>
          rw [addImages_cons_ok f c rest i st b hf]
          exact ih (i + 1) _ m hm
      | error e =>
          rw [addImages_cons_error f c rest i st e hf]
          exact ih (i + 1) _ m (List.mem_append_left _ hm)

theorem addImages_entries_keep (f : String → Except String String) :
    ∀ (cs : List CreativeRow) (i : Nat) (st : ZipLoopState)
      (p : String × String), p ∈ st.entries →
      (∀ c ∈ cs, p.fst ≠ imageFileName c) →
      p ∈ (addImages f cs i st).entries := by
  intro cs
  induction cs with
  | nil => intro i st p hp _; simpa [addImages] using hp
  | cons c rest ih =>
      intro i st p hp hne
      cases hf : f c.image_url with
      | ok b =>
          rw [addImages_cons_ok f c rest i st b hf]
          refine ih (i + 1) _ p ?_ ?_
          · exact zipFile_mem_of_ne st.entries (imageFileName c) b p hp
              (hne c (List.mem_cons_self c rest))
          · intro c2 hc2
            exact hne c2 (List.mem_cons_of_mem c hc2)
      | error e =>
          rw [addImages_cons_error f c rest i st e hf]
          refine ih (i + 1) _ p hp ?_
          intro c2 hc2
          exact hne c2 (List.mem_cons_of_mem c hc2)

theorem addImages_names_mem (f : String → Except String String) :
    ∀ (cs : List CreativeRow) (i : Nat) (st : ZipLoopState) (m : String),
      m ∈ (addImages f cs i st).entries.map Prod.fst ↔
        m ∈ st.entries.map Prod.fst ∨
          ∃ c ∈ cs, (∃ b, f c.image_url = Except.ok b) ∧ m = imageFileName c := by
  intro cs
  induction cs with
  | nil => intro i st m; simp [addImages]
  | cons c rest ih =>
      intro i st m
      cases hf : f c.image_url with
      | ok b =>
          rw [addImages_cons_ok f c rest i st b hf, ih (i + 1)]
          dsimp only
          rw [zipFile_names_mem]
          constructor
          · rintro ((hm | rfl) | ⟨c2, hc2, hb2, rfl⟩)
            · exact Or.inl hm
            · exact Or.inr ⟨c, List.mem_cons_self c rest, ⟨b, hf⟩, rfl⟩
            · exact Or.inr ⟨c2, List.mem_cons_of_mem c hc2, hb2, rfl⟩
          · rintro (hm | ⟨c2, hc2, hb2, rfl⟩)
            · exact Or.inl (Or.inl hm)
            · rcases List.mem_cons.mp hc2 with rfl | hc2
              · exact Or.inl (Or.inr rfl)
              · exact Or.inr ⟨c2, hc2, hb2, rfl⟩
      | error e =>
          rw [addImages_cons_error f c rest i st e hf, ih (i + 1)]
          dsimp only
          constructor
          · rintro (hm | ⟨c2, hc2, hb2, rfl⟩)
            · exact Or.inl hm
            · exact Or.inr ⟨c2, List.mem_cons_of_mem c hc2, hb2, rfl⟩
          · rintro (hm | ⟨c2, hc2, hb2, rfl⟩)
            · exact Or.inl hm
            · rcases List.mem_cons.mp hc2 with rfl | hc2
              · rcases hb2 with ⟨b, hb⟩
                rw [hf] at hb
                exact absurd hb (by simp)
              · exact Or.inr ⟨c2, hc2, hb2, rfl⟩

theorem addImages_names_nodup (f : String → Except String String) :
    ∀ (cs : List CreativeRow) (i : Nat) (st : ZipLoopState),
      (st.entries.map Prod.fst).Nodup →
      ((addImages f cs i st).entries.map Prod.fst).Nodup := by
  intro cs
  induction cs with
  | nil => intro i st hd; simpa [addImages] using hd
  | cons c rest ih =>
      intro i st hd
      cases hf : f c.image_url with
      | ok b =>
          rw [addImages_cons_ok f c rest i st b hf]
          exact ih (i + 1) _
            (zipFile_names_nodup st.entries (imageFileName c) b hd)
      | error e =>
          rw [addImages_cons_error f c rest i st e hf]
          exact ih (i + 1) _ hd

theorem addImages_logs_of_error (f : String → Except String String) :
    ∀ (cs : List CreativeRow) (i : Nat) (st : ZipLoopState) (j : Nat)
      (h : j < cs.length) (e : String),
      f (cs.get ⟨j, h⟩).image_url = Except.error e →
      fetchLogMsg (i + j + 1) e ∈ (addImages f cs i st).logs := by
  intro cs
  induction cs with
  | nil => intro i st j h; exact absurd h (by simp)
  | cons c rest ih =>
      intro i st j h e he
      cases j with
      | zero =>
          have hc : f c.image_url = Except.error e := he
          rw [addImages_cons_error f c rest i st e hc]
          refine addImages_logs_mono f rest (i + 1) _ _ ?_
          dsimp only
          exact List.mem_append_right _ (by simp)
      | succ j0 =>
          have hj : j0 < rest.length := Nat.lt_of_succ_lt_succ h
          have harith : i + 1 + j0 + 1 = i + (j0 + 1) + 1 := by omega
          have he2 : f (rest.get ⟨j0, hj⟩).image_url = Except.error e := he
          cases hf : f c.image_url with
          | ok b =>
              rw [addImages_cons_ok f c rest i st b hf]
              have hrec := ih (i + 1)
                { entries := zipFile st.entries (imageFileName c) b,
                  logs := st.logs,
                  fetches := st.fetches ++ [c.image_url] } j0 hj e he2
              rwa [harith] at hrec
          | error e3 =>
              rw [addImages_cons_error f c rest i st e3 hf]
              have hrec := ih (i + 1)
                { entries := st.entries,
                  logs := st.logs ++ [fetchLogMsg (i + 1) e3],
                  fetches := st.fetches ++ [c.image_url] } j0 hj e he2
              rwa [harith] at hrec

theorem zipLoop_unfold (f : String → Except String String)
    (cs : List CreativeRow) :
    zipLoop f cs = addImages f cs 0
      { entries := initialZip cs, logs := [], fetches := [] } := rfl

theorem zipLoop_names_mem (f : String → Except String String)
    (cs : List CreativeRow) (m : String) :
    m ∈ (zipLoop f cs).entries.map Prod.fst ↔
      m = "captions.txt" ∨
        ∃ c ∈ cs, (∃ b, f c.image_url = Except.ok b) ∧ m = imageFileName c := by
  rw [zipLoop_unfold, addImages_names_mem]
  rw [show ({ entries := initialZip cs, logs := [], fetches := [] }
      : ZipLoopState).entries = initialZip cs from rfl]
  rw [initialZip_eq]
  simp

/-! ### Claim theorems: archive export -/

/-- C3: per-item image-fetch failures in `downloadAsZip` are non-fatal:
the run still downloads an archive that keeps the manifest covering all
items, a failed item's image entry is omitted while its failure is logged,
every item is still fetched in turn, and only a failure outside the
per-item fetch (ZIP generation itself) aborts the whole operation. -/
theorem downloadAsZip_fetch_failure_nonfatal (project : Project)
    (cs : List CreativeRow) (f : String → Except String String) :
    (downloadAsZip project cs f false).outcome
        = ZipOutcome.downloaded (zipDownloadName project)
            (zipLoop f cs).entries ∧
    ("captions.txt", captionsText cs) ∈ (zipLoop f cs).entries ∧
    (∀ c ∈ cs, (∃ b, f c.image_url = Except.ok b) →
        imageFileName c ∈ (zipLoop f cs).entries.map Prod.fst) ∧
    (∀ m ∈ (zipLoop f cs).entries.map Prod.fst,
        m = "captions.txt" ∨
          ∃ c ∈ cs, (∃ b, f c.image_url = Except.ok b) ∧ m = imageFileName c) ∧
    (downloadAsZip project cs f false).fetches
        = cs.map (fun c => c.image_url) ∧
    (∀ (j : Nat) (h : j < cs.length) (e : String),
        f (cs.get ⟨j, h⟩).image_url = Except.error e →
        fetchLogMsg (j + 1) e ∈ (downloadAsZip project cs f false).logs) ∧
    (downloadAsZip project cs f true).outcome
        = ZipOutcome.alerted zipAlertMsg := by
  refine ⟨rfl, ?_, ?_, ?_, ?_, ?_, rfl⟩
  · rw [zipLoop_unfold]
    apply addImages_entries_keep
    · rw [show ({ entries := initialZip cs, logs := [], fetches := [] }
          : ZipLoopState).entries = initialZip cs from rfl]
      rw [initialZip_eq]
      exact List.mem_singleton.mpr rfl
    · intro c _
      exact fun h => imageFileName_ne_captions c h.symm
  · intro c hc hb
    rw [zipLoop_names_mem]
    exact Or.inr ⟨c, hc, hb, rfl⟩
  · intro m hm
    rw [zipLoop_names_mem] at hm
    exact hm
  · rw [show (downloadAsZip project cs f false).fetches
        = (zipLoop f cs).fetches from rfl]
    rw [zipLoop_unfold, addImages_fetches]
    simp
  · intro j h e he
    rw [show (downloadAsZip project cs f false).logs
        = (zipLoop f cs).logs from rfl]
    rw [zipLoop_unfold]
    have hlog := addImages_logs_of_error f cs 0
      { entries := initialZip cs, logs := [], fetches := [] } j h e he
    rwa [Nat.zero_add] at hlog

theorem downloadAsZip_fetch_failure_nonfatal_witness :
    ("captions.txt", captionsText sampleCreatives)
        ∈ (zipLoop sampleFetch sampleCreatives).entries ∧
    imageFileName sampleCreativeA
        ∈ (zipLoop sampleFetch sampleCreatives).entries.map Prod.fst ∧
    fetchLogMsg 2 "network down"
        ∈ (downloadAsZip sampleProject sampleCreatives sampleFetch false).logs ∧
    (downloadAsZip sampleProject sampleCreatives sampleFetch true).outcome
        = ZipOutcome.alerted zipAlertMsg := by
  have h := downloadAsZip_fetch_failure_nonfatal sampleProject
    sampleCreatives sampleFetch
  refine ⟨h.2.1, ?_, ?_, h.2.2.2.2.2.2⟩
  · exact h.2.2.1 sampleCreativeA (by simp [sampleCreatives])
      ⟨"BLOB-A", rfl⟩
  · have := h.2.2.2.2.2.1 1 (by simp [sampleCreatives]) "network down" rfl
    simpa using this

/-- C4: a successful `downloadAsZip` run on a non-empty list is handed to
the browser under the project's sanitized name and its archive holds
exactly one `captions.txt` entry plus one `creative_<variation_number>.jpg`
entry per item whose image fetch succeeded, and nothing else. -/
theorem downloadAsZip_archive_shape (project : Project)
    (cs : List CreativeRow) (f : String → Except String String)
    (hne : cs ≠ []) :
    (downloadAsZip project cs f false).outcome
        = ZipOutcome.downloaded (zipDownloadName project)
            (zipLoop f cs).entries ∧
    zipDownloadName project
        = sanitizeName project.name ++ "_creatives.zip" ∧
    ((zipLoop f cs).entries.map Prod.fst).count "captions.txt" = 1 ∧
    (∀ m, m ∈ (zipLoop f cs).entries.map Prod.fst ↔
        (m = "captions.txt" ∨
          ∃ c ∈ cs, (∃ b, f c.image_url = Except.ok b) ∧ m = imageFileName c)) ∧
    (∀ c : CreativeRow,
        imageFileName c
          = "creative_" ++ Nat.repr c.variation_number ++ ".jpg") := by
  refine ⟨rfl, rfl, ?_, ?_, fun c => rfl⟩
  · have hnodup : ((zipLoop f cs).entries.map Prod.fst).Nodup := by
      rw [zipLoop_unfold]
      apply addImages_names_nodup
      rw [show ({ entries := initialZip cs, logs := [], fetches := [] }
          : ZipLoopState).entries = initialZip cs from rfl]
      rw [initialZip_eq]
      simp
    have hmem : "captions.txt" ∈ (zipLoop f cs).entries.map Prod.fst :=
      (zipLoop_names_mem f cs "captions.txt").mpr (Or.inl rfl)
    exact List.count_eq_one_of_mem hnodup hmem
  · intro m
    exact zipLoop_names_mem f cs m

theorem downloadAsZip_archive_shape_witness :
    (downloadAsZip sampleProject sampleCreatives sampleFetch false).outcome
        = ZipOutcome.downloaded (zipDownloadName sampleProject)
            (zipLoop sampleFetch sampleCreatives).entries ∧
    ((zipLoop sampleFetch sampleCreatives).entries.map
        Prod.fst).count "captions.txt" = 1 ∧
    zipDownloadName sampleProject
        = sanitizeName sampleProject.name ++ "_creatives.zip" := by
  have h := downloadAsZip_archive_shape sampleProject sampleCreatives
    sampleFetch (by simp [sampleCreatives])
  exact ⟨h.1, h.2.2.1, h.2.1⟩

/-! ### Claim theorems: ordering -/

/-- C9: `loadCreatives` returns exactly the project's rows, sorted
ascending by `variation_number`, and that list (in that order) is what the
archive's image-fetch loop walks. -/
theorem loadCreatives_sorted_order (db : List CreativeRow) (pid : Nat)
    (f : String → Except String String) :
    List.Sorted byVariation (loadCreatives db pid) ∧
    (∀ c ∈ loadCreatives db pid, c.project_id = pid) ∧
    List.Perm (loadCreatives db pid)
      (db.filter (fun r => r.project_id == pid)) ∧
    (zipLoop f (loadCreatives db pid)).fetches
      = (loadCreatives db pid).map (fun c => c.image_url) := by
  refine ⟨List.sorted_insertionSort byVariation _, ?_,
    List.perm_insertionSort byVariation _, ?_⟩
  · intro c hc
    have hmem : c ∈ db.filter (fun r => r.project_id == pid) :=
      (List.perm_insertionSort byVariation
        (db.filter (fun r => r.project_id == pid))).mem_iff.mp hc
    have := (List.mem_filter.mp hmem).2
    simpa using this
  · rw [zipLoop_unfold, addImages_fetches]
    simp

theorem loadCreatives_sorted_order_witness :
    List.Sorted byVariation (loadCreatives sampleDb 1) ∧
    sampleOldRow.project_id = 1 ∧
    List.Perm (loadCreatives sampleDb 1)
      (sampleDb.filter (fun r => r.project_id == 1)) := by
  have h := loadCreatives_sorted_order sampleDb 1 sampleFetch
  refine ⟨h.1, h.2.1 sampleOldRow (by decide), h.2.2.1⟩

/-- C10: each manifest entry is labelled by its 1-based list position
(`Image i+1`) while the item's image file is named by its stored
`variation_number`, and the two numberings agree at every position exactly
when the list's variation numbers are `1..N` in order. -/
theorem manifest_position_vs_variation (cs : List CreativeRow) :
    (∀ (c : CreativeRow) (i : Nat),
        captionEntry c i
          = "Image " ++ Nat.repr (i + 1) ++ ":\n" ++ c.caption
              ++ "\n\nPrompt: " ++ c.generation_prompt ++ "\n\n---\n\n") ∧
    (∀ c : CreativeRow,
        imageFileName c
          = "creative_" ++ Nat.repr c.variation_number ++ ".jpg") ∧
    ((∀ (i : Nat) (h : i < cs.length),
        (cs.get ⟨i, h⟩).variation_number = i + 1) ↔
      cs.map (fun c => c.variation_number) = List.range' 1 cs.length) := by
  refine ⟨fun c i => rfl, fun c => rfl, ?_, ?_⟩
  · intro hd
    apply List.ext_getElem
    · simp
    · intro n h1 h2
      have hn : n < cs.length := by simpa using h1
      have h3 : cs[n].variation_number = n + 1 := hd n hn
      simp only [List.getElem_map, List.getElem_range']
      omega
  · intro hmap i hi
    have h1 : (cs.map (fun c => c.variation_number))[i]?
        = (List.range' 1 cs.length)[i]? := by rw [hmap]
    rw [List.getElem?_eq_getElem (by simpa using hi)] at h1
    rw [List.getElem?_eq_getElem (by simpa using hi)] at h1
    have h2 := Option.some.inj h1
    simp only [List.getElem_map, List.getElem_range'] at h2
    show cs[i].variation_number = i + 1
    omega

theorem manifest_position_vs_variation_witness :
    captionEntry sampleCreativeA 0
        = "Image " ++ Nat.repr 1 ++ ":\n" ++ sampleCreativeA.caption
            ++ "\n\nPrompt: " ++ sampleCreativeA.generation_prompt
            ++ "\n\n---\n\n" ∧
    sampleCreatives.map (fun c => c.variation_number)
        = List.range' 1 sampleCreatives.length := by
  have h := manifest_position_vs_variation sampleCreatives
  exact ⟨h.1 sampleCreativeA 0, h.2.2.mp (by decide)⟩

/-! ### Claim theorems: project immutability and form previews -/

theorem applyDbOp_projects_mono (d : Db) (op : DbOp) (p : Project)
    (hp : p ∈ d.projects) : p ∈ (applyDbOp d op).projects := by
  cases op with
  | selectProjects => exact hp
  | selectCreatives pid => exact hp
  | insertProject q => exact List.mem_append_left _ hp
  | deleteCreatives pid => exact hp
  | insertCreatives rows => exact hp

theorem foldl_applyDbOp_projects_mono :
    ∀ (ops : List DbOp) (d : Db) (p : Project),
      p ∈ d.projects → p ∈ (ops.foldl applyDbOp d).projects := by
  intro ops
  induction ops with
  | nil => intro d p hp; exact hp
  | cons op rest ih =>
      intro d p hp
      exact ih _ p (applyDbOp_projects_mono d op p hp)

theorem applyActions_projects_mono :
    ∀ (acts : List UIAction) (d : Db) (p : Project),
      p ∈ d.projects → p ∈ (applyActions d acts).projects := by
  intro acts
  induction acts with
  | nil => intro d p hp; exact hp
  | cons a rest ih =>
      intro d p hp
      exact ih _ p (foldl_applyDbOp_projects_mono (dbOps a) d p hp)

theorem dbOps_projects_classified (a : UIAction) (op : DbOp)
    (hop : op ∈ dbOps a) (ht : op.table = Table.projects) :
    op = DbOp.selectProjects ∨
      ∃ q : Project, op = DbOp.insertProject q
        ∧ a = UIAction.submitProject q := by
  cases a with
  | loadProjects => exact Or.inl (List.mem_singleton.mp hop)
  | loadCreatives pid =>
      rw [List.mem_singleton.mp hop] at ht
      simp [DbOp.table] at ht
  | submitNoUser => simp [dbOps] at hop
  | submitUploadFailed => simp [dbOps] at hop
  | submitProject q => exact Or.inr ⟨q, List.mem_singleton.mp hop, rfl⟩
  | generate env project =>
      cases hs : env.session with
      | none => simp [dbOps, hs] at hop
      | some s =>
          by_cases hok : env.response.ok = true
          · simp [dbOps, hs, hok] at hop
            rcases hop with rfl | rfl
            · simp [DbOp.table] at ht
            · simp [DbOp.table] at ht
          · simp [dbOps, hs, hok] at hop
  | downloadZip => simp [dbOps] at hop
  | logout => simp [dbOps] at hop

/-- C7: the UI never updates or deletes a `projects` row: across any
sequence of UI actions every existing project row survives untouched, and
the only operations ever issued against the `projects` table are the form
submit's single insert and read-only selects. -/
theorem projects_immutable (db : Db) (acts : List UIAction) (p : Project)
    (hp : p ∈ db.projects) :
    p ∈ (applyActions db acts).projects ∧
    (∀ (a : UIAction) (op : DbOp), op ∈ dbOps a →
        op.table = Table.projects →
        op = DbOp.selectProjects ∨
          ∃ q : Project, op = DbOp.insertProject q
            ∧ a = UIAction.submitProject q) :=
  ⟨applyActions_projects_mono acts db p hp,
   fun a op hop ht => dbOps_projects_classified a op hop ht⟩

theorem projects_immutable_witness :
    sampleProject ∈ (applyActions sampleFullDb sampleActions).projects :=
  (projects_immutable sampleFullDb sampleActions sampleProject
    (by simp [sampleFullDb])).1

/-- C8: clearing an upload slot leaves no live preview URL: after the
clear control runs, the object URL created at selection time is revoked
and the slot's file and preview state are reset to empty (revocation
modelled from the spec, see `clearLogo`). -/
theorem clear_upload_revokes_preview (st : FormState) (file : String) :
    (clearLogo (handleLogoSelect st file)).logo.file = none ∧
    (clearLogo (handleLogoSelect st file)).logo.preview = "" ∧
    createObjectURL file ∉ (clearLogo (handleLogoSelect st file)).liveUrls ∧
    (clearProduct (handleProductSelect st file)).product.file = none ∧
    (clearProduct (handleProductSelect st file)).product.preview = "" ∧
    createObjectURL file
        ∉ (clearProduct (handleProductSelect st file)).liveUrls := by
  refine ⟨rfl, rfl, ?_, rfl, rfl, ?_⟩
  · intro hmem
    have hkeep := (List.mem_filter.mp hmem).2
    simp [handleLogoSelect] at hkeep
  · intro hmem
    have hkeep := (List.mem_filter.mp hmem).2
    simp [handleProductSelect] at hkeep

theorem clear_upload_revokes_preview_witness :
    (clearLogo (handleLogoSelect emptyForm "logo.png")).logo.file = none ∧
    (clearLogo (handleLogoSelect emptyForm "logo.png")).logo.preview = "" ∧
    createObjectURL "logo.png"
        ∉ (clearLogo (handleLogoSelect emptyForm "logo.png")).liveUrls := by
  have h := clear_upload_revokes_preview emptyForm "logo.png"
  exact ⟨h.1, h.2.1, h.2.2.1⟩

end CreativeEngine
